import Mathlib

/-!
Verification of the ynkr music-import pipeline (src/.src/import.py).

The development shallowly embeds the resolution-and-deduplication pipeline:
the pure string normalizers, the difflib.SequenceMatcher similarity ratio,
the SQLite-backed import ledger (modelled as an in-memory list of rows in
insertion order, matching the fetch order of the auto-increment table), the
external-service query wrappers, and the per-file control flow of main()
(lines 586-961), modelled as a function from a configuration, a ledger, a
filesystem and one source file to a terminal outcome together with the
updated ledger and filesystem.  Machine-level aspects that the source
delegates to libraries (unicode normalization tables, the tag container
formats) are modelled by the fragment the pipeline exercises and documented
at each definition.
-/

/-! ## Character classes and Python / SQLite string primitives -/

/-- Python str.lower / SQLite LOWER on the ASCII range: maps codes 65-90
(capital A-Z) to codes 97-122.  SQLite LOWER folds exactly ASCII; Python
str.lower agrees with this on ASCII strings, which is the fragment the
pipeline compares. -/
def asciiLowerChar (c : Char) : Char :=
  if 65 ≤ c.toNat ∧ c.toNat ≤ 90 then Char.ofNat (c.toNat + 32) else c

/-- Python str.lower, modelled character-wise on the ASCII fragment. -/
def pyLower (s : String) : String := ⟨s.data.map asciiLowerChar⟩

/-- SQLite LOWER(x): ASCII-only case folding (non-ASCII characters are
returned unchanged by default SQLite builds). -/
def sqliteLower (s : String) : String := ⟨s.data.map asciiLowerChar⟩

/-- Python whitespace for str.strip and the regex class backslash-s on the
ASCII fragment: space 32, tab 9, newline 10, vertical tab 11, form feed 12,
carriage return 13. -/
def isPySpace (c : Char) : Bool :=
  c.toNat = 32 || c.toNat = 9 || c.toNat = 10 || c.toNat = 11 ||
  c.toNat = 12 || c.toNat = 13

/-- The character class of the collapsing regex in normalize_string
(import.py line 344): whitespace, dash 45, underscore 95. -/
def isCollapseChar (c : Char) : Bool :=
  isPySpace c || c.toNat = 45 || c.toNat = 95

/-- The character class kept by the removal regex in normalize_string
(import.py line 345): lower-case a-z (97-122), digits (48-57), space 32. -/
def isKeptChar (c : Char) : Bool :=
  (97 ≤ c.toNat && c.toNat ≤ 122) || (48 ≤ c.toNat && c.toNat ≤ 57) ||
  c.toNat = 32

/-- re.sub of one-or-more collapse-class characters by a single space:
each maximal run of collapse-class characters becomes one space 32.  The
boolean argument records whether the previous character belonged to the
current run. -/
def collapseRuns : Bool → List Char → List Char
  | _, [] => []
  | inRun, c :: rest =>
    if isCollapseChar c then
      if inRun then collapseRuns true rest
      else ' ' :: collapseRuns true rest
    else c :: collapseRuns false rest

/-- Python str.strip, leading part: drop leading whitespace. -/
def dropLeadingSpace (l : List Char) : List Char := l.dropWhile isPySpace

/-- Python str.strip, trailing part: drop trailing whitespace. -/
def dropTrailingSpace : List Char → List Char
  | [] => []
  | c :: rest =>
    let r := dropTrailingSpace rest
    if r = [] && isPySpace c then [] else c :: r

/-- Python str.strip on a character list. -/
def pyStripList (l : List Char) : List Char := dropTrailingSpace (dropLeadingSpace l)

/-- Python str.strip. -/
def pyStrip (s : String) : String := ⟨pyStripList s.data⟩

/-- unicodedata.normalize NFKD (import.py line 343), modelled as the
identity: NFKD is the identity on ASCII text, and every string this
development evaluates the normalizer on is ASCII. -/
def nfkd (l : List Char) : List Char := l

/-- normalize_string (import.py lines 339-347): empty-guard, lower-case,
NFKD, collapse whitespace/dash/underscore runs to single spaces, strip all
characters outside lower-case alphanumerics and space, strip ends. -/
def normalize_string (s : String) : String :=
  if s = "" then ""
  else ⟨pyStripList (((collapseRuns false (nfkd (s.data.map asciiLowerChar)))).filter isKeptChar)⟩

/-- Characters removed by sanitize_filename (import.py lines 364-366):
backslash 92, slash 47, colon 58, star 42, question mark 63, double quote
34, less 60, greater 62, pipe 124. -/
def isIllegalFilenameChar (c : Char) : Bool :=
  c.toNat = 92 || c.toNat = 47 || c.toNat = 58 || c.toNat = 42 ||
  c.toNat = 63 || c.toNat = 34 || c.toNat = 60 || c.toNat = 62 ||
  c.toNat = 124

/-- sanitize_filename (import.py lines 364-366): remove filename-illegal
characters, then strip. -/
def sanitize_filename (s : String) : String :=
  ⟨pyStripList (s.data.filter (fun c => !isIllegalFilenameChar c))⟩

/-- Combining diaeresis U+0308. -/
def combiningDiaeresis : Char := Char.ofNat 0x0308

/-- unicodedata.normalize NFC composition step, modelled on the fragment
this development exercises: a base letter followed by combining diaeresis
U+0308 composes to the precomposed character; all other pairs are left
alone.  (Full NFC restricted to these inputs behaves exactly so.) -/
def nfcCompose (base comb : Char) : Option Char :=
  if comb = combiningDiaeresis then
    if base = 'A' then some 'Ä'
    else if base = 'a' then some 'ä'
    else if base = 'O' then some 'Ö'
    else if base = 'o' then some 'ö'
    else if base = 'U' then some 'Ü'
    else if base = 'u' then some 'ü'
    else none
  else none

/-- unicodedata.normalize NFC over a character list (pairwise composition
on the modelled fragment). -/
def nfcList : List Char → List Char
  | [] => []
  | [c] => [c]
  | c1 :: c2 :: rest =>
    match nfcCompose c1 c2 with
    | some c => c :: nfcList rest
    | none => c1 :: nfcList (c2 :: rest)

/-- normalize_filename_for_db (import.py lines 349-357): empty-guard, then
unicode NFC normalization of the filename. -/
def normalize_filename_for_db (filename : String) : String :=
  if filename = "" then "" else ⟨nfcList filename.data⟩

/-! ## difflib.SequenceMatcher ratio -/

/-- Length of the common prefix of two character lists. -/
def commonPrefixLen : List Char → List Char → Nat
  | a :: as, b :: bs => if a = b then commonPrefixLen as bs + 1 else 0
  | _, _ => 0

/-- Length of the matching run of a and b starting at positions i and j. -/
def runLenAt (a b : List Char) (i j : Nat) : Nat :=
  commonPrefixLen (a.drop i) (b.drop j)

/-- difflib SequenceMatcher find_longest_match with no junk (the junk
heuristic is off for b2j sequences shorter than 200 elements, which covers
every comparison the pipeline makes): among all maximal matching blocks,
the one starting earliest in a, then earliest in b; returns (i, j, size). -/
def findLongestMatch (a b : List Char) : Nat × Nat × Nat :=
  (List.range (a.length + 1)).foldl (fun best i =>
    (List.range (b.length + 1)).foldl (fun best j =>
      let k := runLenAt a b i j
      if best.2.2 < k then (i, j, k) else best) best) (0, 0, 0)

/-- Total size of the matching blocks of SequenceMatcher: the longest
matching block plus, recursively, the matches to its left and to its
right.  Fuel bounds the recursion depth; every recursive step removes at
least one character from each side of the split, so fuel equal to the sum
of the two lengths is always sufficient. -/
def matchTotalFuel : Nat → List Char → List Char → Nat
  | 0, _, _ => 0
  | fuel + 1, a, b =>
    let m := findLongestMatch a b
    let i := m.1
    let j := m.2.1
    let k := m.2.2
    if k = 0 then 0
    else matchTotalFuel fuel (a.take i) (b.take j) + k +
         matchTotalFuel fuel (a.drop (i + k)) (b.drop (j + k))

/-- Total matched characters between a and b, as used by ratio. -/
def matchTotal (a b : List Char) : Nat :=
  matchTotalFuel (a.length + b.length) a b

/-- SequenceMatcher.ratio: 2*M/T where M is the total matched characters
and T the sum of the lengths; 1 for two empty sequences (difflib returns
1.0 when T = 0).  The Python float ratio is modelled by the exact
rational. -/
def matchRatio (a b : List Char) : ℚ :=
  if a.length + b.length = 0 then 1
  else mkRat (2 * (matchTotal a b : Int)) (a.length + b.length)

/-- is_similar (import.py lines 507-510): false when either string is
falsy (empty), otherwise compares the SequenceMatcher ratio of the
lower-cased strings against the threshold. -/
def is_similar (a b : String) (threshold : ℚ) : Bool :=
  if a = "" || b = "" then false
  else decide (threshold ≤ matchRatio (pyLower a).data (pyLower b).data)

/-! ## The import ledger -/

/-- One row of the imports table (import.py lines 381-390).  Rows are kept
in insertion order, which is the order the auto-increment table returns
them in; the id and date_added columns are never consulted by the pipeline
logic and are omitted. -/
structure DbRow where
  originalName : String
  aiArtist : String
  aiTitle : String
  storagePath : String
deriving DecidableEq, Repr

/-- insert_db (import.py lines 394-402): append a real import row. -/
def insert_db (rows : List DbRow) (originalName aiArtist aiTitle storagePath : String) :
    List DbRow :=
  rows ++ [⟨originalName, aiArtist, aiTitle, storagePath⟩]

/-- insert_db_skipped (import.py lines 404-413): append a suppression row
whose artist, title and storage-path fields all carry the bracketed
reason tag. -/
def insert_db_skipped (rows : List DbRow) (originalName reason : String) : List DbRow :=
  rows ++ [⟨originalName, "[" ++ reason ++ "]", "[" ++ reason ++ "]", "[" ++ reason ++ "]"⟩]

/-- First row whose original_name equals the query literally
(import.py lines 468-472 and 483-487 with the normalized argument). -/
def dbFindLiteral (name : String) (rows : List DbRow) : Option DbRow :=
  rows.find? (fun r => r.originalName = name)

/-- First row matching case-insensitively under SQLite LOWER
(import.py lines 475-479 and 490-492). -/
def dbFindCaseInsensitive (name : String) (rows : List DbRow) : Option DbRow :=
  rows.find? (fun r => sqliteLower r.originalName = sqliteLower name)

/-- check_db_by_filename_variations (import.py lines 462-493): literal
match, then case-insensitive match, then the same two queries again with
the NFC-normalized filename; first hit wins. -/
def check_db_by_filename_variations (filename : String) (rows : List DbRow) : Option DbRow :=
  match dbFindLiteral filename rows with
  | some r => some r
  | none =>
    match dbFindCaseInsensitive filename rows with
    | some r => some r
    | none =>
      let normalized := normalize_filename_for_db filename
      match dbFindLiteral normalized rows with
      | some r => some r
      | none => dbFindCaseInsensitive normalized rows

/-- check_db_fuzzy (import.py lines 495-505): scan every row of the table
in order; the first row whose artist and title are both is_similar to the
query yields (ai_artist, ai_title, storage_path). -/
def check_db_fuzzy (aiArtist aiTitle : String) (threshold : ℚ) (rows : List DbRow) :
    Option (String × String × String) :=
  (rows.find? (fun r =>
      is_similar aiArtist r.aiArtist threshold && is_similar aiTitle r.aiTitle threshold)).map
    (fun r => (r.aiArtist, r.aiTitle, r.storagePath))

/-! ## Python values and the external service queries -/

/-- JSON values as decoded by response.json / json.loads (floats are not
exercised by the pipeline and are omitted). -/
inductive PyVal where
  | null
  | bool (b : Bool)
  | int (n : Int)
  | str (s : String)
  | arr (elems : List PyVal)
  | obj (fields : List (String × PyVal))

/-- Python truthiness of a JSON-decoded value. -/
def pyTruthy : PyVal → Bool
  | .null => false
  | .bool b => b
  | .int n => n ≠ 0
  | .str s => s ≠ ""
  | .arr elems => !elems.isEmpty
  | .obj fields => !fields.isEmpty

/-- Truthiness of an optional Python string (None and the empty string are
falsy). -/
def optStrTruthy : Option String → Bool
  | none => false
  | some s => s ≠ ""

/-- Truthiness of an optional JSON value (None is falsy). -/
def optPyTruthy : Option PyVal → Bool
  | none => false
  | some v => pyTruthy v

/-- Python exceptions raised inside the service-query try blocks. -/
inductive PyExc where
  | attributeError
  | typeError
deriving DecidableEq, Repr

/-- Python attribute access value.name for a value produced by json
decoding: such a value is a dict, list, str, int, float, bool or None, and
none of these types carries a data attribute like response, so the access
raises AttributeError. -/
def pyGetAttr (_v : PyVal) (_attr : String) : Except PyExc PyVal :=
  .error .attributeError

/-- Possible outcomes of the HTTP call in query_ollama_for_metadata
(import.py lines 228-237). -/
inductive HttpOutcome where
  | requestFailed       -- requests.post raised (timeout, connection error)
  | jsonDecodeFailed    -- response.json() raised (malformed body)
  | ok (body : PyVal)   -- decoded JSON body of the HTTP response

/-- The tail of the try block of query_ollama_for_metadata after a
successful HTTP call (import.py lines 237-244).  The code evaluates
result.response where result is the decoded JSON body; that attribute
access raises AttributeError (pyGetAttr).  The subsequent lines 241-244
(json.loads of result.response and the field extraction) are therefore
unreachable; they are modelled by the TypeError json.loads raises on every
non-string value that could reach it. -/
def ollamaTryBody (result : PyVal) :
    Except PyExc (Option PyVal × Option String × Option String) := do
  let r ← pyGetAttr result "response"
  if !pyTruthy r then
    return (none, none, none)
  .error .typeError

/-- query_ollama_for_metadata (import.py lines 154-247).  The filename and
existing artist/title only feed the prompt text; every exception of the
try block is caught by the blanket handler, which returns the triple
(None, None, None). -/
def query_ollama_for_metadata (useOllama : Bool) (_filename : String)
    (_existingArtist _existingTitle : Option String) (resp : HttpOutcome) :
    Option PyVal × Option String × Option String :=
  if !useOllama then (none, none, none)
  else
    match resp with
    | .requestFailed => (none, none, none)
    | .jsonDecodeFailed => (none, none, none)
    | .ok body =>
      match ollamaTryBody body with
      | .ok t => t
      | .error _ => (none, none, none)

/-- Possible outcomes of the OpenAI call in query_openai_for_metadata
(import.py lines 318-333).  The parsed constructor carries
data.get of use_as_is with default False (a missing key yields bool
false), and data.get of artist and of title; per the service contract
these fields are JSON strings when present, so non-string field values are
not modelled. -/
inductive OpenAiOutcome where
  | requestFailed   -- API call or json.loads raised (timeout, network, malformed response)
  | emptyContent    -- the message content was falsy (line 329)
  | parsed (useAsIs : PyVal) (artist : Option String) (title : Option String)

/-- query_openai_for_metadata (import.py lines 249-336): returns
(None, None, None) unless USE_OPENAI and a truthy api key are configured;
any fault of the call or of parsing is caught by the blanket handler and
also yields (None, None, None). -/
def query_openai_for_metadata (useOpenai : Bool) (apiKey : Option String)
    (_filename : String) (_existingArtist _existingTitle : Option String)
    (resp : OpenAiOutcome) : Option PyVal × Option String × Option String :=
  if !(useOpenai && optStrTruthy apiKey) then (none, none, none)
  else
    match resp with
    | .requestFailed => (none, none, none)
    | .emptyContent => (none, none, none)
    | .parsed u a t => (some u, a, t)

/-! ## Filesystem and configuration model -/

/-- os.path.join for the POSIX paths the pipeline builds. -/
def joinPath (a b : String) : String := a ++ "/" ++ b

/-- The observable filesystem: a list of directories and a list of files,
each file as (containing directory, filename). -/
structure Fs where
  dirs : List String
  files : List (String × String)
deriving DecidableEq, Repr

/-- os.path.exists. -/
def Fs.pathExists (fs : Fs) (p : String) : Bool :=
  fs.dirs.contains p || fs.files.any (fun e => joinPath e.1 e.2 = p)

/-- os.listdir. -/
def Fs.listdir (fs : Fs) (d : String) : List String :=
  (fs.files.filter (fun e => e.1 = d)).map (fun e => e.2)

/-- os.makedirs. -/
def Fs.mkdirs (fs : Fs) (d : String) : Fs := { fs with dirs := fs.dirs ++ [d] }

/-- Effect of shutil.copy2 on the destination tree. -/
def Fs.addFile (fs : Fs) (d name : String) : Fs :=
  { fs with files := fs.files ++ [(d, name)] }

/-- Run configuration: the environment flags and CLI flags consumed by
main.  The debug flag only adds logging and sleeping and never changes a
ledger or filesystem effect, so it is carried but unused. -/
structure Config where
  useOllama : Bool
  useOpenai : Bool
  openaiApiKey : Option String
  dryRun : Bool
  dryAi : Bool
  debug : Bool
  fuzzyThreshold : ℚ
  dest : String
deriving Repr

/-! ## Filename helpers of the pipeline -/

/-- Position of the extension dot per os.path.splitext on a basename: the
last dot, provided some non-dot character precedes it. -/
def splitextIdx (l : List Char) : Option Nat :=
  match l.reverse.findIdx? (fun c => c = '.') with
  | none => none
  | some k =>
    let i := l.length - 1 - k
    if (l.take i).any (fun c => c ≠ '.') then some i else none

/-- os.path.splitext, extension component (with its dot). -/
def splitextExt (s : String) : String :=
  match splitextIdx s.data with
  | none => ""
  | some i => ⟨s.data.drop i⟩

/-- os.path.splitext, root component. -/
def splitextRoot (s : String) : String :=
  match splitextIdx s.data with
  | none => s
  | some i => ⟨s.data.take i⟩

/-- AUDIO_EXTS (import.py line 62). -/
def AUDIO_EXTS : List String := [".mp3", ".m4a", ".opus", ".ogg", ".flac", ".wav", ".aac"]

/-- is_audio_file (import.py lines 137-138). -/
def is_audio_file (filename : String) : Bool :=
  AUDIO_EXTS.contains (pyLower (splitextExt filename))

/-- artist.split on semicolon, first element: the characters before the
first semicolon, the whole string when there is none. -/
def firstSemiToken (s : String) : String := ⟨s.data.takeWhile (fun c => c ≠ ';')⟩

/-- main_artist (import.py line 785): first semicolon token of the artist,
stripped; Unknown_Artist when the artist is falsy. -/
def mainArtistOf (artist : Option String) : String :=
  match artist with
  | some a => if a ≠ "" then pyStrip (firstSemiToken a) else "Unknown_Artist"
  | none => "Unknown_Artist"

/-- safe_artist (import.py line 786). -/
def safeArtistOf (mainArtist : String) : String :=
  if mainArtist ≠ "" then sanitize_filename mainArtist else "Unknown_Artist"

/-- safe_title (import.py line 787). -/
def safeTitleOf (title : Option String) : String :=
  match title with
  | some t => if t ≠ "" then sanitize_filename t else "Unknown_Title"
  | none => "Unknown_Title"

/-- Duplicate detection in the destination directory (import.py lines
791-801, repeated at 729-738): when the destination directory exists, scan
its audio files for one whose normalized stem equals the normalized title
(unknown_title when the title is falsy). -/
def duplicateScan (fs : Fs) (destDir : String) (title : Option String) : Bool :=
  if fs.pathExists destDir then
    let existingFiles := (fs.listdir destDir).filter
      (fun f => AUDIO_EXTS.contains (pyLower (splitextExt f)))
    let normTitle := match title with
      | some t => if t ≠ "" then normalize_string t else "unknown_title"
      | none => "unknown_title"
    existingFiles.any (fun f => normalize_string (splitextRoot f) = normTitle)
  else false

/-! ## The resolver chain and the per-file state machine -/

/-- The two external normalization services. -/
inductive Service where
  | ollama
  | openai
deriving DecidableEq, Repr

/-- One invocation of a service query function, with the arguments the
pipeline passed (import.py lines 663-668 and 693-698). -/
structure SvcCall where
  service : Service
  filename : String
  existingArtist : Option String
  existingTitle : Option String
deriving DecidableEq, Repr

/-- State of the use_as_is / artist / title variables after the resolver
chain (import.py lines 650-721), plus the log of service calls made. -/
structure ChainResult where
  useAsIs : Option PyVal
  artist : Option String
  title : Option String
  calls : List SvcCall

/-- The resolver chain (import.py lines 650-721): use_as_is, llm_artist
and llm_title start as None; Ollama is queried when enabled; the embedded
artist/title are replaced only when use_as_is is falsy and the service
returned both a truthy artist and a truthy title; OpenAI is queried, with
the current artist/title variables as inputs, exactly when it is enabled
and the Ollama round produced neither a truthy use_as_is nor both fields
(line 692), and its answer is folded in the same way. -/
def resolveChain (cfg : Config) (fname : String) (artist0 title0 : Option String)
    (ollamaResp : HttpOutcome) (openaiResp : OpenAiOutcome) : ChainResult :=
  let r1 := if cfg.useOllama then
      query_ollama_for_metadata true fname artist0 title0 ollamaResp
    else (none, none, none)
  let calls1 : List SvcCall := if cfg.useOllama then [⟨.ollama, fname, artist0, title0⟩] else []
  let u1 := r1.1
  let a1 := r1.2.1
  let t1 := r1.2.2
  let artist1 := if optPyTruthy u1 then artist0
    else if optStrTruthy a1 && optStrTruthy t1 then a1 else artist0
  let title1 := if optPyTruthy u1 then title0
    else if optStrTruthy a1 && optStrTruthy t1 then t1 else title0
  let callOpenai := cfg.useOpenai && (!optPyTruthy u1 && !(optStrTruthy a1 && optStrTruthy t1))
  if callOpenai then
    let r2 := query_openai_for_metadata true cfg.openaiApiKey fname artist1 title1 openaiResp
    let u2 := r2.1
    let a2 := r2.2.1
    let t2 := r2.2.2
    let artist2 := if optPyTruthy u2 then artist1
      else if optStrTruthy a2 && optStrTruthy t2 then a2 else artist1
    let title2 := if optPyTruthy u2 then title1
      else if optStrTruthy a2 && optStrTruthy t2 then t2 else title1
    ⟨u2, artist2, title2, calls1 ++ [⟨.openai, fname, artist1, title1⟩]⟩
  else
    ⟨u1, artist1, title1, calls1⟩

/-- Terminal outcome of one file in the per-file state machine. -/
inductive Outcome where
  | skipExact
  | suppressNotAudio
  | skipFuzzyRaw (linkedPath : String)
  | dryAiPreview
  | skipDuplicate
  | useAsIsExistsSkip
  | useAsIsWouldCopy
  | useAsIsCopied (destPath : String)
  | divertWouldMove
  | divertUnsorted (unsortedPath : String)
  | existsSkip
  | skipFuzzyResolved (linkedPath : String)
  | imported (destPath : String)
deriving DecidableEq, Repr

/-- Python exceptions that escape main (nothing in the per-file loop
catches a filesystem error of shutil.copy2). -/
inductive PyError where
  | osError
deriving DecidableEq, Repr

/-- One source file as the pipeline sees it: its name, the embedded tag
fields get_metadata extracted (the tag reader is an external capability;
its result is an input here), the responses of the external services, and
whether shutil.copy2 raises a filesystem error for this file. -/
structure FileInput where
  fname : String
  metaArtist : Option String
  metaTitle : Option String
  ollamaResp : HttpOutcome
  openaiResp : OpenAiOutcome
  copyFails : Bool

/-- Placement and recording (import.py lines 783-961): destination-name
computation, destination duplicate scan, the use-as-is branch, the
unsorted divert, the exact-destination-exists skip, the copy, the
post-resolution fuzzy check and the final insertion.  An uncaught
filesystem error is returned as an error carrying the ledger and
filesystem at the moment of the raise. -/
def placeAndRecord (cfg : Config) (ledger : List DbRow) (fs : Fs) (file : FileInput)
    (useAsIs : Option PyVal) (artist title : Option String) (calls : List SvcCall) :
    Except (PyError × List DbRow × Fs) (Outcome × List DbRow × Fs × List SvcCall) :=
  let ext := pyLower (splitextExt file.fname)
  let mainArtist := mainArtistOf artist
  let safeArtist := safeArtistOf mainArtist
  let safeTitle := safeTitleOf title
  let destDir := joinPath cfg.dest safeArtist
  let destName := safeTitle ++ ext
  let destPath := joinPath destDir destName
  if duplicateScan fs destDir title then
    .ok (.skipDuplicate, insert_db_skipped ledger file.fname "duplicate", fs, calls)
  else if optPyTruthy useAsIs then
    if fs.pathExists destPath then
      .ok (.useAsIsExistsSkip, ledger, fs, calls)
    else if cfg.dryRun then
      .ok (.useAsIsWouldCopy, ledger, fs, calls)
    else
      let fs1 := if !fs.pathExists destDir then fs.mkdirs destDir else fs
      if file.copyFails then .error (.osError, ledger, fs1)
      else
        .ok (.useAsIsCopied destPath, ledger, fs1.addFile destDir destName, calls)
  else if !(optStrTruthy artist && optStrTruthy title) then
    let unsortedDir := joinPath cfg.dest "_Unsorted"
    if cfg.dryRun || cfg.dryAi then
      .ok (.divertWouldMove, ledger, fs, calls)
    else
      let fs1 := if !fs.pathExists unsortedDir then fs.mkdirs unsortedDir else fs
      if file.copyFails then .error (.osError, ledger, fs1)
      else
        .ok (.divertUnsorted (joinPath unsortedDir file.fname),
             insert_db_skipped ledger file.fname "no_metadata",
             fs1.addFile unsortedDir file.fname, calls)
  else if fs.pathExists destPath then
    .ok (.existsSkip, ledger, fs, calls)
  else
    let copyStep : Except (PyError × List DbRow × Fs) Fs :=
      if cfg.dryRun then .ok fs
      else
        let fs1 := if !fs.pathExists destDir then fs.mkdirs destDir else fs
        if file.copyFails then .error (.osError, ledger, fs1)
        else .ok (fs1.addFile destDir destName)
    match copyStep with
    | .error e => .error e
    | .ok fs2 =>
      match check_db_fuzzy (artist.getD "") (title.getD "") (mkRat 95 100) ledger with
      | some (dbArtist, dbTitle, dbPath) =>
        .ok (.skipFuzzyResolved dbPath,
             insert_db ledger file.fname dbArtist dbTitle dbPath, fs2, calls)
      | none =>
        .ok (.imported destPath,
             insert_db ledger file.fname (artist.getD "") (title.getD "") destPath, fs2, calls)

/-- The per-file state machine (import.py lines 588-961): exact ledger
check, non-audio suppression, raw-metadata fuzzy check, resolver chain
with its inner duplicate check, dry-ai preview, then placement and
recording. -/
def processFile (cfg : Config) (ledger : List DbRow) (fs : Fs) (file : FileInput) :
    Except (PyError × List DbRow × Fs) (Outcome × List DbRow × Fs × List SvcCall) :=
  if (check_db_by_filename_variations file.fname ledger).isSome then
    .ok (.skipExact, ledger, fs, [])
  else if !is_audio_file file.fname then
    .ok (.suppressNotAudio, insert_db_skipped ledger file.fname "not_audio", fs, [])
  else
    let artist0 := file.metaArtist
    let title0 := file.metaTitle
    let rawFuzzy := if optStrTruthy artist0 && optStrTruthy title0 then
        check_db_fuzzy (artist0.getD "") (title0.getD "") cfg.fuzzyThreshold ledger
      else none
    match rawFuzzy with
    | some (dbArtist, dbTitle, dbPath) =>
      .ok (.skipFuzzyRaw dbPath, insert_db ledger file.fname dbArtist dbTitle dbPath, fs, [])
    | none =>
      if (cfg.useOllama || cfg.useOpenai) && !cfg.dryRun then
        let r := resolveChain cfg file.fname artist0 title0 file.ollamaResp file.openaiResp
        -- lines 722-743: the resolver branch runs the duplicate scan itself
        -- (with the same derived names as lines 783-801) before falling
        -- through to the shared placement code
        let destDir := joinPath cfg.dest (safeArtistOf (mainArtistOf r.artist))
        if duplicateScan fs destDir r.title then
          .ok (.skipDuplicate, insert_db_skipped ledger file.fname "duplicate", fs, r.calls)
        else
          placeAndRecord cfg ledger fs file r.useAsIs r.artist r.title r.calls
      else if cfg.dryAi then
        -- lines 744-781: query one service for preview only; no ledger or
        -- filesystem effect
        let calls : List SvcCall :=
          if cfg.useOllama then [⟨.ollama, file.fname, artist0, title0⟩]
          else if cfg.useOpenai then [⟨.openai, file.fname, artist0, title0⟩]
          else []
        .ok (.dryAiPreview, ledger, fs, calls)
      else
        placeAndRecord cfg ledger fs file none artist0 title0 []

/-- The file loop of main (import.py lines 586-961): files are processed
strictly in order; an uncaught exception aborts the whole run, leaving the
remaining files unprocessed. -/
def processFiles (cfg : Config) :
    List DbRow → Fs → List FileInput → Except (PyError × List DbRow × Fs) (List DbRow × Fs)
  | ledger, fs, [] => .ok (ledger, fs)
  | ledger, fs, file :: rest =>
    match processFile cfg ledger fs file with
    | .error e => .error e
    | .ok (_, ledger1, fs1, _) => processFiles cfg ledger1 fs1 rest

set_option maxRecDepth 400000

deriving instance DecidableEq for Except

/-! ## Derived notions used by the statements -/

/-- Number of ledger rows the pipeline appends on the way to a terminal
outcome (in a run with both dry modes off). -/
def ledgerWritesOf : Outcome → Nat
  | .skipExact => 0
  | .suppressNotAudio => 1
  | .skipFuzzyRaw _ => 1
  | .dryAiPreview => 0
  | .skipDuplicate => 1
  | .useAsIsExistsSkip => 0
  | .useAsIsWouldCopy => 0
  | .useAsIsCopied _ => 0
  | .divertWouldMove => 0
  | .divertUnsorted _ => 1
  | .existsSkip => 0
  | .skipFuzzyResolved _ => 1
  | .imported _ => 1

/-- No two adjacent characters of the collapse class. -/
def noCollapseRun : List Char → Bool
  | c :: d :: rest => !(isCollapseChar c && isCollapseChar d) && noCollapseRun (d :: rest)
  | _ => true

/-- Empty, or the first character is not of the collapse class. -/
def headNotCollapse : List Char → Bool
  | [] => true
  | c :: _ => !isCollapseChar c

/-- Empty, or the first character is not whitespace. -/
def headNotSpace : List Char → Bool
  | [] => true
  | c :: _ => !isPySpace c

/-- Empty, or the last character is not whitespace. -/
def lastNotSpace : List Char → Bool
  | [] => true
  | [c] => !isPySpace c
  | _ :: rest => lastNotSpace rest

/-- The non-empty branch of normalize_string as a function on character
lists: lower-case, NFKD, collapse, remove, strip. -/
def coreNormalize (l : List Char) : List Char :=
  pyStripList ((collapseRuns false (nfkd (l.map asciiLowerChar))).filter isKeptChar)

/-! ## Concrete run scenarios referenced by the statements -/

/-- A run with no normalization service enabled, dry modes off. -/
def noServiceConfig : Config := ⟨false, false, none, false, false, false, mkRat 95 100, "dest"⟩

/-- The same run in dry-run mode. -/
def dryRunConfig : Config := ⟨false, false, none, true, false, false, mkRat 95 100, "dest"⟩

/-- A run with only OpenAI enabled (Ollama off), dry modes off. -/
def openaiOnlyConfig : Config := ⟨false, true, some "key", false, false, false, mkRat 95 100, "dest"⟩

/-- A run with both services enabled, dry modes off. -/
def bothServicesConfig : Config := ⟨true, true, some "key", false, false, false, mkRat 95 100, "dest"⟩

/-- A destination tree holding only the (empty) destination root. -/
def emptyDestFs : Fs := ⟨["dest"], []⟩

/-- A file with embedded artist ACRAZE and title Do It To It and the given
extension; no service answers. -/
def acrazeFile (ext : String) : FileInput :=
  ⟨"song" ++ ext, some "ACRAZE", some "Do It To It", .requestFailed, .requestFailed, false⟩

/-- A ledger row recording an earlier import of ACRAZE - Do It To It. -/
def priorAcrazeRow : DbRow := ⟨"y.mp3", "ACRAZE", "Do It To It", "dest/ACRAZE/Do It To It.mp3"⟩

/-- The destination tree matching priorAcrazeRow. -/
def acrazeDestFs : Fs := ⟨["dest", "dest/ACRAZE"], [("dest/ACRAZE", "Do It To It.mp3")]⟩

/-- A file with no embedded tags whose OpenAI resolution lands within the
fuzzy threshold of priorAcrazeRow (title ratio 22/23) without being equal
to it after normalization. -/
def nearTitleFile : FileInput :=
  ⟨"x.mp3", none, none, .requestFailed, .parsed (.bool false) (some "ACRAZE") (some "Do It To Itt"), false⟩

/-- A file whose copy raises a filesystem error. -/
def copyFailFile : FileInput :=
  ⟨"bad.mp3", some "A", some "B", .requestFailed, .requestFailed, true⟩

/-- A well-behaved file queued after copyFailFile. -/
def secondFile : FileInput :=
  ⟨"good.mp3", some "C", some "D", .requestFailed, .requestFailed, false⟩

/-- A file whose title contains a sanitized-away question mark, so that
its destination name exists on disk while the normalized titles differ. -/
def questionTitleFile : FileInput :=
  ⟨"song.mp3", some "ACRAZE", some "a ? b", .requestFailed, .requestFailed, false⟩

/-- A destination tree already holding the file name that
questionTitleFile sanitizes to. -/
def spacedTitleFs : Fs := ⟨["dest", "dest/ACRAZE"], [("dest/ACRAZE", "a  b.mp3")]⟩

/-- The filename capital A, combining diaeresis U+0308, capital B: its NFC
form is the precomposed diaeresis A followed by B. -/
def decomposedName : String := ⟨['A', combiningDiaeresis, 'B']⟩

/-- A ledger row whose original name is precomposed diaeresis A (U+00C4)
followed by lower-case b. -/
def precomposedRow : DbRow := ⟨"Äb", "a", "t", "p"⟩

/-! ## Shared lemmas -/

/-- query_ollama_for_metadata is constantly (None, None, None): the try
block either raises before producing a value (HTTP call, JSON decode, or
the attribute access result.response) or returns the none triple, and the
blanket except handler also returns the none triple. -/
theorem ollama_query_eq_none (useOllama : Bool) (filename : String)
    (a t : Option String) (resp : HttpOutcome) :
    query_ollama_for_metadata useOllama filename a t resp = (none, none, none) := by
  cases useOllama <;> cases resp <;> rfl

/-! ## Claim C6 -/

/-- C6: for every filename, every optional embedded artist/title, and
every possible response of the Ollama service (request failure,
undecodable body, or any decoded JSON body), query_ollama_for_metadata
returns (None, None, None): after a successful HTTP call the code reads
the attribute response on the value returned by response.json(), which
raises AttributeError and is caught by the blanket handler, so Ollama can
never yield a use-as-is or resolved decision and resolution always falls
through. -/
theorem c6_ollama_never_resolves (useOllama : Bool) (filename : String)
    (a t : Option String) (resp : HttpOutcome) :
    query_ollama_for_metadata useOllama filename a t resp = (none, none, none) :=
  ollama_query_eq_none useOllama filename a t resp

/-! ## Claim C1 -/

/-- C1 (failing input): with a prior import of ACRAZE - Do It To It in the
ledger and on disk, a file resolved by the service to ACRAZE - Do It To
Itt (title ratio 22/23, above the 0.95 threshold, yet distinct after
normalization) is physically copied to dest/ACRAZE/Do It To Itt.mp3 BEFORE
the post-resolution fuzzy check runs; the check then matches and the
ledger entry reuses the existing storage path, but a second physical copy
has been written into the destination tree, contradicting the claim. -/
theorem c1_post_fuzzy_links_after_copying :
    processFile openaiOnlyConfig [priorAcrazeRow] acrazeDestFs nearTitleFile =
      .ok (.skipFuzzyResolved "dest/ACRAZE/Do It To It.mp3",
        [priorAcrazeRow, ⟨"x.mp3", "ACRAZE", "Do It To It", "dest/ACRAZE/Do It To It.mp3"⟩],
        ⟨["dest", "dest/ACRAZE"],
         [("dest/ACRAZE", "Do It To It.mp3"), ("dest/ACRAZE", "Do It To Itt.mp3")]⟩,
        [⟨.openai, "x.mp3", none, none⟩]) := by decide

/-! ## Claim C4 -/

/-- C4 (failing input): in dry-run mode no copy is performed, yet the
pipeline still runs the final insertion (import.py line 884 only skips the
copy, the code at lines 938-948 runs unconditionally), so an import record
whose storage path names a file that does not exist on disk is inserted. -/
theorem c4_dry_run_inserts_nonexistent_path :
    processFile dryRunConfig [] emptyDestFs (acrazeFile ".mp3") =
      .ok (.imported "dest/ACRAZE/Do It To It.mp3",
        [⟨"song" ++ ".mp3", "ACRAZE", "Do It To It", "dest/ACRAZE/Do It To It.mp3"⟩],
        emptyDestFs, [])
    ∧ emptyDestFs.pathExists "dest/ACRAZE/Do It To It.mp3" = false := by decide

/-! ## Claim C7 -/

/-- C7: a file with embedded artist ACRAZE and title Do It To It, no
service enabled and dry modes off, processed against an empty ledger and
an empty destination, is copied to dest/ACRAZE/Do It To It.(ext) and
exactly one import record for it is inserted. -/
theorem c7_acraze_scenario (ext : String) (hext : ext ∈ AUDIO_EXTS) :
    processFile noServiceConfig [] emptyDestFs (acrazeFile ext) =
      .ok (.imported ("dest/ACRAZE/Do It To It" ++ ext),
        [⟨"song" ++ ext, "ACRAZE", "Do It To It", "dest/ACRAZE/Do It To It" ++ ext⟩],
        ⟨["dest", "dest/ACRAZE"], [("dest/ACRAZE", "Do It To It" ++ ext)]⟩, []) := by
  fin_cases hext <;> decide

/-- C7 witness: the scenario instantiated at the mp3 extension. -/
theorem c7_acraze_scenario_witness :
    ".mp3" ∈ AUDIO_EXTS ∧
    processFile noServiceConfig [] emptyDestFs (acrazeFile ".mp3") =
      .ok (.imported ("dest/ACRAZE/Do It To It" ++ ".mp3"),
        [⟨"song" ++ ".mp3", "ACRAZE", "Do It To It", "dest/ACRAZE/Do It To It" ++ ".mp3"⟩],
        ⟨["dest", "dest/ACRAZE"], [("dest/ACRAZE", "Do It To It" ++ ".mp3")]⟩, []) :=
  ⟨by decide, c7_acraze_scenario ".mp3" (by decide)⟩

/-! ## Claim C5 -/

/-- C5 (counterexample): check_db_fuzzy scans every row of the table with
no filter on suppression rows (import.py line 498 selects all rows), so a
query whose artist and title both sit within the threshold of a bracketed
suppression tag returns that suppression row, contradicting the claim
that only non-suppressed records can be returned. -/
theorem c5_fuzzy_returns_suppressed_row :
    check_db_fuzzy "[duplicate]" "[duplicate]" (mkRat 95 100)
        (insert_db_skipped [] "x.mp3" "duplicate") =
      some ("[duplicate]", "[duplicate]", "[duplicate]") := by decide

/-- C5 (amended): dropping the non-suppressed condition, the rest of the
claim holds: any candidate check_db_fuzzy returns passed both the artist
similarity and, independently, the title similarity at the given
threshold; a row matching on one field only is never returned. -/
theorem c5_fuzzy_requires_both_fields (a t : String) (th : ℚ) (rows : List DbRow)
    (r : String × String × String) (h : check_db_fuzzy a t th rows = some r) :
    is_similar a r.1 th = true ∧ is_similar t r.2.1 th = true := by
  unfold check_db_fuzzy at h
  cases hf : rows.find? (fun row => is_similar a row.aiArtist th && is_similar t row.aiTitle th) with
  | none => rw [hf] at h; simp at h
  | some row =>
    rw [hf] at h
    have hp := List.find?_some hf
    rw [Bool.and_eq_true] at hp
    simp only [Option.map_some'] at h
    cases h
    exact ⟨hp.1, hp.2⟩

/-- C5 witness: the amended theorem applied at the suppressed-row input. -/
theorem c5_fuzzy_requires_both_fields_witness :
    is_similar "[duplicate]" "[duplicate]" (mkRat 95 100) = true ∧
    is_similar "[duplicate]" "[duplicate]" (mkRat 95 100) = true :=
  c5_fuzzy_requires_both_fields "[duplicate]" "[duplicate]" (mkRat 95 100)
    (insert_db_skipped [] "x.mp3" "duplicate")
    ("[duplicate]", "[duplicate]", "[duplicate]") (by decide)

/-! ## Claim C2 (counterexample) -/

/-- C2 (counterexample): the already-exists skip (import.py lines 881-883)
is a terminal outcome that writes no ledger entry at all, although the
claim lists it among those writing exactly one.  The destination file name
exists on disk while the normalized titles differ, so the duplicate scan
does not fire first. -/
theorem c2_exists_skip_writes_nothing :
    processFile noServiceConfig [] spacedTitleFs questionTitleFile =
      .ok (.existsSkip, [], spacedTitleFs, []) := by decide

/-! ## Claim C3 (counterexample) -/

/-- C3 (counterexample): shutil.copy2 at import.py line 889 is wrapped in
no try handler, so a filesystem error during the copy aborts the whole
run: the result is an uncaught exception, no ledger entry is written for
the faulting file, and the second queued file is never processed —
contradicting the claim that the pipeline proceeds to the next file. -/
theorem c3_copy_fault_aborts_run :
    processFiles noServiceConfig [] emptyDestFs [copyFailFile, secondFile] =
      .error (.osError, [], ⟨["dest", "dest/A"], []⟩) := by decide

/-! ## Claim C8 (counterexample) -/

/-- C8 (counterexample): for the filename A + combining diaeresis + B
against a ledger row named precomposed-diaeresis-A b, the three match
tiers of the claim (literal, case-insensitive, unicode-normalized) all
miss, yet check_db_by_filename_variations returns the row through its
fourth tier, the case-insensitive comparison of the NFC-normalized name
(import.py lines 489-492); so the function does not return none when the
three listed tiers miss. -/
theorem c8_fourth_tier_returns_hit :
    check_db_by_filename_variations decomposedName [precomposedRow] = some precomposedRow ∧
    dbFindLiteral decomposedName [precomposedRow] = none ∧
    dbFindCaseInsensitive decomposedName [precomposedRow] = none ∧
    dbFindLiteral (normalize_filename_for_db decomposedName) [precomposedRow] = none := by
  decide

/-! ## Claim C10 (counterexample) -/

/-- C10 (counterexample): normalize_string is not idempotent.  On the
input a dot dot b, the first pass removes the dots after having collapsed
whitespace, leaving a double space; the second pass collapses that double
space, so applying the function twice differs from applying it once. -/
theorem c10_not_idempotent :
    normalize_string (normalize_string "a .. b") ≠ normalize_string "a .. b" := by decide

/-! ## Structural lemmas about the per-file state machine -/

/-- Placement never raises when the copy does not fault. -/
theorem placeAndRecord_isOk (cfg : Config) (ledger : List DbRow) (fs : Fs)
    (file : FileInput) (u : Option PyVal) (a t : Option String) (calls : List SvcCall)
    (h : file.copyFails = false) :
    (placeAndRecord cfg ledger fs file u a t calls).isOk = true := by
  unfold placeAndRecord
  simp only [h]
  repeat' split
  all_goals try (rename_i heq; split at heq)
  all_goals simp_all [Except.isOk, Except.toBool]

/-- The per-file state machine never raises when the copy does not
fault: no service response can abort processing of a file. -/
theorem processFile_isOk (cfg : Config) (ledger : List DbRow) (fs : Fs)
    (file : FileInput) (h : file.copyFails = false) :
    (processFile cfg ledger fs file).isOk = true := by
  unfold processFile
  repeat'
    first
      | rfl
      | exact placeAndRecord_isOk _ _ _ _ _ _ _ _ h
      | split
      | dsimp only

/-- Ledger accounting for the placement segment: the rows appended on
the way to each terminal outcome. -/
theorem placeAndRecord_ledger_writes (cfg : Config) (ledger : List DbRow) (fs : Fs)
    (file : FileInput) (u : Option PyVal) (a t : Option String) (calls : List SvcCall)
    (out : Outcome) (l2 : List DbRow) (fs2 : Fs) (calls2 : List SvcCall)
    (hp : placeAndRecord cfg ledger fs file u a t calls = .ok (out, l2, fs2, calls2)) :
    l2.length = ledger.length + ledgerWritesOf out := by
  unfold placeAndRecord at hp
  dsimp only at hp
  split_ifs at hp
  all_goals repeat' split at hp
  all_goals try simp only [Except.ok.injEq, Prod.mk.injEq] at hp
  all_goals first
    | (obtain ⟨rfl, rfl, rfl, rfl⟩ := hp
       simp [insert_db, insert_db_skipped, ledgerWritesOf])
    | simp_all

/-- Ledger accounting for the whole per-file state machine. -/
theorem processFile_ledger_writes (cfg : Config) (ledger : List DbRow) (fs : Fs)
    (file : FileInput) (out : Outcome) (l2 : List DbRow) (fs2 : Fs) (calls2 : List SvcCall)
    (hp : processFile cfg ledger fs file = .ok (out, l2, fs2, calls2)) :
    l2.length = ledger.length + ledgerWritesOf out := by
  unfold processFile at hp
  dsimp only at hp
  repeat' split at hp
  all_goals try simp only [Except.ok.injEq, Prod.mk.injEq] at hp
  all_goals first
    | exact placeAndRecord_ledger_writes _ _ _ _ _ _ _ _ _ _ _ _ hp
    | (obtain ⟨rfl, rfl, rfl, rfl⟩ := hp
       simp [insert_db, insert_db_skipped, ledgerWritesOf])
    | simp_all

/-- An uncaught filesystem error in the placement segment escapes before
any ledger row for the file is written. -/
theorem placeAndRecord_error_ledger (cfg : Config) (ledger : List DbRow) (fs : Fs)
    (file : FileInput) (u : Option PyVal) (a t : Option String) (calls : List SvcCall)
    (e : PyError) (l2 : List DbRow) (fs2 : Fs)
    (hp : placeAndRecord cfg ledger fs file u a t calls = .error (e, l2, fs2)) :
    l2 = ledger := by
  unfold placeAndRecord at hp
  dsimp only at hp
  split_ifs at hp
  all_goals repeat' split at hp
  all_goals try simp only [Except.error.injEq, Prod.mk.injEq] at hp
  all_goals first
    | (obtain ⟨rfl, rfl, rfl⟩ := hp
       rfl)
    | (obtain ⟨-, rfl, rfl⟩ := hp
       rfl)
    | simp_all

/-- An uncaught filesystem error in the per-file state machine escapes
before any ledger row for the file is written. -/
theorem processFile_error_ledger (cfg : Config) (ledger : List DbRow) (fs : Fs)
    (file : FileInput) (e : PyError) (l2 : List DbRow) (fs2 : Fs)
    (hp : processFile cfg ledger fs file = .error (e, l2, fs2)) :
    l2 = ledger := by
  unfold processFile at hp
  dsimp only at hp
  repeat' split at hp
  all_goals first
    | exact placeAndRecord_error_ledger _ _ _ _ _ _ _ _ _ _ _ hp
    | (obtain ⟨rfl, rfl, rfl⟩ := hp
       rfl)
    | (obtain ⟨-, rfl, rfl⟩ := hp
       rfl)
    | simp_all

/-! ## Claim C2 (amended) -/

/-- C2 (amended): reaching a terminal outcome writes exactly one ledger
entry for the not-audio suppression, the raw fuzzy skip, the duplicate
skip, the unsorted divert, the post-resolution fuzzy link and the import —
and writes nothing for Skip-Exact, the already-exists skips (plain and
use-as-is), the use-as-is successful copy, and the dry previews.  The
counts are given by ledgerWritesOf. -/
theorem c2_ledger_writes_per_outcome (cfg : Config) (ledger : List DbRow) (fs : Fs)
    (file : FileInput) (out : Outcome) (l2 : List DbRow) (fs2 : Fs) (calls2 : List SvcCall)
    (hp : processFile cfg ledger fs file = .ok (out, l2, fs2, calls2)) :
    l2.length = ledger.length + ledgerWritesOf out :=
  processFile_ledger_writes cfg ledger fs file out l2 fs2 calls2 hp

/-- C2 witness: the amended theorem applied to a concrete import run. -/
theorem c2_witness :
    ([⟨"song" ++ ".mp3", "ACRAZE", "Do It To It", "dest/ACRAZE/Do It To It.mp3"⟩] : List DbRow).length =
      ([] : List DbRow).length + ledgerWritesOf (.imported "dest/ACRAZE/Do It To It.mp3") :=
  c2_ledger_writes_per_outcome noServiceConfig [] emptyDestFs (acrazeFile ".mp3")
    (.imported "dest/ACRAZE/Do It To It.mp3")
    [⟨"song" ++ ".mp3", "ACRAZE", "Do It To It", "dest/ACRAZE/Do It To It.mp3"⟩]
    ⟨["dest", "dest/ACRAZE"], [("dest/ACRAZE", "Do It To It" ++ ".mp3")]⟩ [] (by decide)

/-! ## Claim C3 (amended) -/

/-- C3 (amended): when a filesystem error occurs while copying a file, no
ledger entry is written for that file, but the error is not caught: it
propagates out of the loop and halts the run, so the pipeline does not
proceed to the next file. -/
theorem c3_copy_fault_no_entry_and_halts (cfg : Config) (ledger : List DbRow) (fs : Fs)
    (file : FileInput) (rest : List FileInput) (e : PyError) (l2 : List DbRow) (fs2 : Fs)
    (hp : processFile cfg ledger fs file = .error (e, l2, fs2)) :
    l2 = ledger ∧ processFiles cfg ledger fs (file :: rest) = .error (e, l2, fs2) :=
  ⟨processFile_error_ledger cfg ledger fs file e l2 fs2 hp, by simp [processFiles, hp]⟩

/-- C3 witness: the amended theorem applied to a concrete two-file run
whose first copy faults. -/
theorem c3_witness :
    ([] : List DbRow) = [] ∧
    processFiles noServiceConfig [] emptyDestFs [copyFailFile, secondFile] =
      .error (.osError, [], ⟨["dest", "dest/A"], []⟩) :=
  c3_copy_fault_no_entry_and_halts noServiceConfig [] emptyDestFs copyFailFile [secondFile]
    .osError [] ⟨["dest", "dest/A"], []⟩ (by decide)

/-! ## Claim C9 -/

/-- C9: with both services enabled and dry-run off, the resolver chain
queries Ollama first and queries OpenAI exactly when that first round
produced neither a truthy use-as-is verdict nor both a non-empty artist
and a non-empty title; the OpenAI call receives the same filename and the
same embedded artist/title as the Ollama call.  Moreover no service
response — timeouts, network failures and malformed bodies are returned as
the none triple by the query wrappers — ever drops a file: whenever the
copy itself does not fault, processing reaches a terminal outcome. -/
theorem c9_second_service_chain (cfg : Config) (fname : String)
    (artist0 title0 : Option String) (oResp : HttpOutcome) (aiResp : OpenAiOutcome)
    (hOllama : cfg.useOllama = true) (hOpenai : cfg.useOpenai = true)
    (hDry : cfg.dryRun = false) :
    ((resolveChain cfg fname artist0 title0 oResp aiResp).calls =
      [⟨.ollama, fname, artist0, title0⟩] ++
        (if !optPyTruthy (query_ollama_for_metadata true fname artist0 title0 oResp).1 &&
            !(optStrTruthy (query_ollama_for_metadata true fname artist0 title0 oResp).2.1 &&
              optStrTruthy (query_ollama_for_metadata true fname artist0 title0 oResp).2.2)
         then [⟨.openai, fname, artist0, title0⟩] else []))
    ∧ ∀ (ledger : List DbRow) (fs : Fs) (file : FileInput), file.copyFails = false →
        (processFile cfg ledger fs file).isOk = true := by
  constructor
  · simp [resolveChain, ollama_query_eq_none, hOllama, hOpenai, optPyTruthy, optStrTruthy]
  · intro ledger fs file hcf
    exact processFile_isOk cfg ledger fs file hcf

/-- C9 witness: the theorem applied to a concrete configuration with both
services enabled and failing service calls. -/
theorem c9_witness :
    ((resolveChain bothServicesConfig "f.mp3" none none .requestFailed .requestFailed).calls =
      [⟨.ollama, "f.mp3", none, none⟩] ++
        (if !optPyTruthy (query_ollama_for_metadata true "f.mp3" none none .requestFailed).1 &&
            !(optStrTruthy (query_ollama_for_metadata true "f.mp3" none none .requestFailed).2.1 &&
              optStrTruthy (query_ollama_for_metadata true "f.mp3" none none .requestFailed).2.2)
         then [⟨.openai, "f.mp3", none, none⟩] else []))
    ∧ (processFile bothServicesConfig [] emptyDestFs (acrazeFile ".mp3")).isOk = true := by
  have h := c9_second_service_chain bothServicesConfig "f.mp3" none none
    .requestFailed .requestFailed rfl rfl rfl
  exact ⟨h.1, h.2 [] emptyDestFs (acrazeFile ".mp3") rfl⟩

/-! ## Claim C8 (amended) -/

/-- C8 (amended): check_db_by_filename_variations tries the literal
match, the case-insensitive match, the NFC-normalized literal match, and
the NFC-normalized case-insensitive match, in that priority order,
returning the first hit or none; and every returned row is a row of the
table matching the query under one of those four comparisons. -/
theorem c8_lookup_priority (filename : String) (rows : List DbRow) :
    (check_db_by_filename_variations filename rows =
      ((dbFindLiteral filename rows).orElse fun _ =>
        ((dbFindCaseInsensitive filename rows).orElse fun _ =>
          ((dbFindLiteral (normalize_filename_for_db filename) rows).orElse fun _ =>
            dbFindCaseInsensitive (normalize_filename_for_db filename) rows))))
    ∧ ∀ r, check_db_by_filename_variations filename rows = some r →
        r ∈ rows ∧ (r.originalName = filename ∨
          sqliteLower r.originalName = sqliteLower filename ∨
          r.originalName = normalize_filename_for_db filename ∨
          sqliteLower r.originalName = sqliteLower (normalize_filename_for_db filename)) := by
  have horelse : check_db_by_filename_variations filename rows =
      ((dbFindLiteral filename rows).orElse fun _ =>
        ((dbFindCaseInsensitive filename rows).orElse fun _ =>
          ((dbFindLiteral (normalize_filename_for_db filename) rows).orElse fun _ =>
            dbFindCaseInsensitive (normalize_filename_for_db filename) rows))) := by
    unfold check_db_by_filename_variations
    cases h1 : dbFindLiteral filename rows <;>
      cases h2 : dbFindCaseInsensitive filename rows <;>
        cases h3 : dbFindLiteral (normalize_filename_for_db filename) rows <;>
          simp [Option.orElse, h3]
  refine ⟨horelse, fun r hr => ?_⟩
  rw [horelse] at hr
  rw [Option.orElse_eq_some'] at hr
  rcases hr with h | ⟨-, hr⟩
  · simp only [dbFindLiteral] at h
    exact ⟨List.mem_of_find?_eq_some h, Or.inl (by simpa using List.find?_some h)⟩
  · rw [Option.orElse_eq_some'] at hr
    rcases hr with h | ⟨-, hr⟩
    · simp only [dbFindCaseInsensitive] at h
      exact ⟨List.mem_of_find?_eq_some h, Or.inr (Or.inl (by simpa using List.find?_some h))⟩
    · rw [Option.orElse_eq_some'] at hr
      rcases hr with h | ⟨-, h⟩
      · simp only [dbFindLiteral] at h
        exact ⟨List.mem_of_find?_eq_some h,
          Or.inr (Or.inr (Or.inl (by simpa using List.find?_some h)))⟩
      · simp only [dbFindCaseInsensitive] at h
        exact ⟨List.mem_of_find?_eq_some h,
          Or.inr (Or.inr (Or.inr (by simpa using List.find?_some h)))⟩

/-! ## Normalizer analysis for claim C10 -/

/-- A character of code 32 is the space character. -/
theorem char_eq_space_of_toNat (c : Char) (h : c.toNat = 32) : c = ' ' := by
  have h2 := Char.ofNat_toNat c
  rw [h] at h2
  rw [← h2]

/-- Characters kept by the removal regex are not upper-case, so
lower-casing fixes them. -/
theorem kept_not_upper {c : Char} (h : isKeptChar c = true) : asciiLowerChar c = c := by
  simp only [isKeptChar, Bool.or_eq_true, Bool.and_eq_true, decide_eq_true_eq] at h
  have hn : ¬(65 ≤ c.toNat ∧ c.toNat ≤ 90) := by omega
  simp [asciiLowerChar, hn]

/-- The only kept character in the collapse class is the space. -/
theorem kept_collapse_eq_space {c : Char} (hk : isKeptChar c = true)
    (hc : isCollapseChar c = true) : c = ' ' := by
  simp only [isKeptChar, isCollapseChar, isPySpace, Bool.or_eq_true, Bool.and_eq_true,
    decide_eq_true_eq] at hk hc
  exact char_eq_space_of_toNat c (by omega)

/-- Lower-casing is the identity on lists of kept characters. -/
theorem map_lower_id {l : List Char} (h : ∀ c ∈ l, isKeptChar c = true) :
    l.map asciiLowerChar = l := by
  induction l with
  | nil => rfl
  | cons c rest ih =>
    simp only [List.map_cons]
    rw [kept_not_upper (h c (List.mem_cons_self c rest)),
      ih (fun d hd => h d (List.mem_cons_of_mem c hd))]

/-- Dropping trailing whitespace yields a subset of the characters. -/
theorem mem_dropTrailingSpace {c : Char} :
    ∀ {l : List Char}, c ∈ dropTrailingSpace l → c ∈ l := by
  intro l
  induction l with
  | nil => simp [dropTrailingSpace]
  | cons d rest ih =>
    simp only [dropTrailingSpace]
    split
    · intro h; simp at h
    · intro h
      rcases List.mem_cons.mp h with h | h
      · exact h ▸ List.mem_cons_self _ _
      · exact List.mem_cons_of_mem _ (ih h)

/-- Stripping yields a subset of the characters. -/
theorem mem_pyStripList {c : Char} {l : List Char} (h : c ∈ pyStripList l) : c ∈ l := by
  have h1 : c ∈ dropLeadingSpace l := mem_dropTrailingSpace h
  exact (List.dropWhile_sublist isPySpace).mem h1

/-- Collapsing runs only introduces spaces. -/
theorem mem_collapseRuns {c : Char} :
    ∀ {b : Bool} {l : List Char}, c ∈ collapseRuns b l → c = ' ' ∨ c ∈ l := by
  intro b l
  induction l generalizing b with
  | nil => simp [collapseRuns]
  | cons d rest ih =>
    simp only [collapseRuns]
    split
    · split
      · intro h
        rcases ih h with h | h
        · exact Or.inl h
        · exact Or.inr (List.mem_cons_of_mem _ h)
      · intro h
        rcases List.mem_cons.mp h with h | h
        · exact Or.inl h
        · rcases ih h with h | h
          · exact Or.inl h
          · exact Or.inr (List.mem_cons_of_mem _ h)
    · intro h
      rcases List.mem_cons.mp h with h | h
      · exact Or.inr (h ▸ List.mem_cons_self _ _)
      · rcases ih h with h | h
        · exact Or.inl h
        · exact Or.inr (List.mem_cons_of_mem _ h)

/-- Every character of a normalizer output is kept-class. -/
theorem allKept_coreNormalize (l : List Char) :
    ∀ c ∈ coreNormalize l, isKeptChar c = true := by
  intro c hc
  have h1 := mem_pyStripList hc
  exact (List.mem_filter.mp h1).2

/-- noCollapseRun restricts to the tail. -/
theorem noCollapseRun_tail {c : Char} {l : List Char}
    (h : noCollapseRun (c :: l) = true) : noCollapseRun l = true := by
  cases l with
  | nil => rfl
  | cons d rest =>
    simp only [noCollapseRun, Bool.and_eq_true] at h
    exact h.2

/-- Prepending a non-collapse character preserves noCollapseRun. -/
theorem noCollapseRun_cons_of_head {c : Char} {l : List Char}
    (hc : isCollapseChar c = false) (h : noCollapseRun l = true) :
    noCollapseRun (c :: l) = true := by
  cases l with
  | nil => rfl
  | cons d rest => simp [noCollapseRun, hc, h]

/-- Prepending any character before a non-collapse head preserves
noCollapseRun. -/
theorem noCollapseRun_cons_of_next {c : Char} {l : List Char}
    (hl : headNotCollapse l = true) (h : noCollapseRun l = true) :
    noCollapseRun (c :: l) = true := by
  cases l with
  | nil => rfl
  | cons d rest =>
    simp only [headNotCollapse, Bool.not_eq_true'] at hl
    simp [noCollapseRun, hl, h]

/-- The output of collapsing has no adjacent collapse-class characters,
and in an open run it never starts with one. -/
theorem collapseRuns_props (l : List Char) :
    noCollapseRun (collapseRuns false l) = true ∧
      noCollapseRun (collapseRuns true l) = true ∧
      headNotCollapse (collapseRuns true l) = true := by
  induction l with
  | nil => exact ⟨rfl, rfl, rfl⟩
  | cons c rest ih =>
    obtain ⟨ih1, ih2, ih3⟩ := ih
    by_cases hc : isCollapseChar c = true
    · simp only [collapseRuns, hc, if_true]
      exact ⟨noCollapseRun_cons_of_next ih3 ih2, ih2, ih3⟩
    · have hc2 : isCollapseChar c = false := by simpa using hc
      simp only [collapseRuns, hc2, Bool.false_eq_true, if_false]
      exact ⟨noCollapseRun_cons_of_head hc2 ih1, noCollapseRun_cons_of_head hc2 ih1,
        by simp [headNotCollapse, hc2]⟩

/-- After a collapse-class character, noCollapseRun forces a
non-collapse head. -/
theorem headNotCollapse_of_collapse_head {c : Char} {l : List Char}
    (h : noCollapseRun (c :: l) = true) (hc : isCollapseChar c = true) :
    headNotCollapse l = true := by
  cases l with
  | nil => rfl
  | cons d rest =>
    simp only [noCollapseRun, hc, Bool.and_eq_true, Bool.not_eq_true', Bool.true_and] at h
    simp [headNotCollapse, h.1]

/-- Collapsing is the identity on kept-character lists with no adjacent
collapse-class characters. -/
theorem collapseRuns_id :
    ∀ l : List Char, (∀ c ∈ l, isKeptChar c = true) → noCollapseRun l = true →
      collapseRuns false l = l ∧ (headNotCollapse l = true → collapseRuns true l = l) := by
  intro l
  induction l with
  | nil => exact fun _ _ => ⟨rfl, fun _ => rfl⟩
  | cons c rest ih =>
    intro hk hr
    have hkr : ∀ d ∈ rest, isKeptChar d = true := fun d hd => hk d (List.mem_cons_of_mem c hd)
    have hrr : noCollapseRun rest = true := noCollapseRun_tail hr
    obtain ⟨ih1, ih2⟩ := ih hkr hrr
    by_cases hc : isCollapseChar c = true
    · have hsp : c = ' ' := kept_collapse_eq_space (hk c (List.mem_cons_self c rest)) hc
      subst hsp
      have hhead : headNotCollapse rest = true := headNotCollapse_of_collapse_head hr hc
      constructor
      · simp only [collapseRuns, hc, if_true, ih2 hhead, Bool.false_eq_true, if_false]
      · intro hhc
        simp only [headNotCollapse] at hhc
        exact absurd hhc (by decide)
    · have hc2 : isCollapseChar c = false := by simpa using hc
      constructor
      · simp only [collapseRuns, hc2, Bool.false_eq_true, if_false, ih1]
      · intro _
        simp only [collapseRuns, hc2, Bool.false_eq_true, if_false, ih1]

/-- Dropping leading whitespace leaves a non-whitespace head. -/
theorem headNotSpace_dropLeadingSpace (l : List Char) :
    headNotSpace (dropLeadingSpace l) = true := by
  induction l with
  | nil => rfl
  | cons c rest ih =>
    by_cases hc : isPySpace c = true
    · simpa [dropLeadingSpace, List.dropWhile_cons, hc] using ih
    · have hc2 : isPySpace c = false := by simpa using hc
      simp [dropLeadingSpace, List.dropWhile_cons, hc2, headNotSpace]

/-- Dropping trailing whitespace yields the empty list or keeps the
head. -/
theorem dropTrailingSpace_shape (c : Char) (l : List Char) :
    dropTrailingSpace (c :: l) = [] ∨ dropTrailingSpace (c :: l) = c :: dropTrailingSpace l := by
  simp only [dropTrailingSpace]
  split
  · exact Or.inl rfl
  · exact Or.inr rfl

/-- Dropping trailing whitespace preserves a non-whitespace head. -/
theorem headNotSpace_dropTrailingSpace {l : List Char} (h : headNotSpace l = true) :
    headNotSpace (dropTrailingSpace l) = true := by
  cases l with
  | nil => rfl
  | cons c rest =>
    rcases dropTrailingSpace_shape c rest with hs | hs <;> rw [hs]
    · rfl
    · exact h

/-- Dropping trailing whitespace leaves a non-whitespace last
character. -/
theorem lastNotSpace_dropTrailingSpace (l : List Char) :
    lastNotSpace (dropTrailingSpace l) = true := by
  induction l with
  | nil => rfl
  | cons c rest ih =>
    simp only [dropTrailingSpace]
    split
    · rfl
    · rename_i hcond
      cases hr : dropTrailingSpace rest with
      | nil =>
        rw [hr] at hcond
        simp only [decide_True, Bool.true_and] at hcond
        have hc2 : isPySpace c = false := by simpa using hcond
        simp [lastNotSpace, hc2]
      | cons d r2 =>
        have h2 := ih
        rw [hr] at h2
        exact h2

/-- Dropping leading whitespace preserves noCollapseRun. -/
theorem noCollapseRun_dropLeadingSpace :
    ∀ l : List Char, noCollapseRun l = true → noCollapseRun (dropLeadingSpace l) = true := by
  intro l
  induction l with
  | nil => exact fun h => h
  | cons c rest ih =>
    intro h
    by_cases hc : isPySpace c = true
    · simp only [dropLeadingSpace, List.dropWhile_cons, hc, if_true]
      exact ih (noCollapseRun_tail h)
    · have hc2 : isPySpace c = false := by simpa using hc
      simpa [dropLeadingSpace, List.dropWhile_cons, hc2] using h

/-- Dropping trailing whitespace preserves noCollapseRun. -/
theorem noCollapseRun_dropTrailingSpace :
    ∀ l : List Char, noCollapseRun l = true → noCollapseRun (dropTrailingSpace l) = true := by
  intro l
  induction l with
  | nil => exact fun h => h
  | cons c rest ih =>
    intro h
    simp only [dropTrailingSpace]
    split
    · rfl
    · cases hr : dropTrailingSpace rest with
      | nil => rfl
      | cons d r2 =>
        have hnr := ih (noCollapseRun_tail h)
        rw [hr] at hnr
        cases rest with
        | nil => simp [dropTrailingSpace] at hr
        | cons e r3 =>
          rcases dropTrailingSpace_shape e r3 with hs | hs
          · rw [hs] at hr
            exact absurd hr (by simp)
          · rw [hs] at hr
            injection hr with h1 h2
            subst h1
            simp only [noCollapseRun, Bool.and_eq_true] at h ⊢
            exact ⟨h.1, hnr⟩

/-- Dropping leading whitespace is the identity when the head is not
whitespace. -/
theorem dropLeadingSpace_id {l : List Char} (h : headNotSpace l = true) :
    dropLeadingSpace l = l := by
  cases l with
  | nil => rfl
  | cons c rest =>
    simp only [headNotSpace, Bool.not_eq_true'] at h
    simp [dropLeadingSpace, List.dropWhile_cons, h]

/-- Dropping trailing whitespace is the identity when the last
character is not whitespace. -/
theorem dropTrailingSpace_id :
    ∀ l : List Char, lastNotSpace l = true → dropTrailingSpace l = l := by
  intro l
  induction l with
  | nil => exact fun _ => rfl
  | cons c rest ih =>
    intro h
    cases rest with
    | nil =>
      simp only [lastNotSpace, Bool.not_eq_true'] at h
      simp [dropTrailingSpace, h]
    | cons d r2 =>
      have h2 : lastNotSpace (d :: r2) = true := h
      have hdt := ih h2
      show (if dropTrailingSpace (d :: r2) = [] && isPySpace c then []
            else c :: dropTrailingSpace (d :: r2)) = c :: d :: r2
      rw [hdt]
      simp

/-- Stripping is the identity when neither end is whitespace. -/
theorem pyStripList_id {l : List Char} (h1 : headNotSpace l = true)
    (h2 : lastNotSpace l = true) : pyStripList l = l := by
  unfold pyStripList
  rw [dropLeadingSpace_id h1, dropTrailingSpace_id l h2]

/-- The removal filter is the identity on kept-character lists. -/
theorem filter_kept_id {l : List Char} (h : ∀ c ∈ l, isKeptChar c = true) :
    l.filter isKeptChar = l := List.filter_eq_self.mpr h

/-- On kept-character input the normalizer core reduces to collapsing
followed by stripping. -/
theorem coreNormalize_of_kept {l : List Char} (h : ∀ c ∈ l, isKeptChar c = true) :
    coreNormalize l = pyStripList (collapseRuns false l) := by
  unfold coreNormalize nfkd
  rw [map_lower_id h, filter_kept_id]
  intro c hc
  rcases mem_collapseRuns hc with hc1 | hc1
  · subst hc1; decide
  · exact h c hc1

/-- The second application of the normalizer core produces a list with
no adjacent collapse-class characters and whitespace-free ends. -/
theorem coreNormalize_canon {l : List Char} (hk : ∀ c ∈ l, isKeptChar c = true) :
    noCollapseRun (coreNormalize l) = true ∧ headNotSpace (coreNormalize l) = true ∧
      lastNotSpace (coreNormalize l) = true := by
  rw [coreNormalize_of_kept hk]
  unfold pyStripList
  refine ⟨?_, ?_, ?_⟩
  · exact noCollapseRun_dropTrailingSpace _
      (noCollapseRun_dropLeadingSpace _ (collapseRuns_props l).1)
  · exact headNotSpace_dropTrailingSpace (headNotSpace_dropLeadingSpace _)
  · exact lastNotSpace_dropTrailingSpace _

/-- For kept characters a non-whitespace head is a non-collapse head. -/
theorem headNotCollapse_of_kept {l : List Char} (hk : ∀ c ∈ l, isKeptChar c = true)
    (h : headNotSpace l = true) : headNotCollapse l = true := by
  cases l with
  | nil => rfl
  | cons c rest =>
    simp only [headNotSpace, Bool.not_eq_true'] at h
    simp only [headNotCollapse, Bool.not_eq_true']
    by_contra hcc
    have hcol : isCollapseChar c = true := by simpa using hcc
    have hsp := kept_collapse_eq_space (hk c (List.mem_cons_self c rest)) hcol
    subst hsp
    exact absurd h (by decide)

/-- The normalizer core is the identity on canonical lists: kept
characters, no adjacent collapse-class characters, whitespace-free
ends. -/
theorem coreNormalize_id {l : List Char} (hk : ∀ c ∈ l, isKeptChar c = true)
    (hr : noCollapseRun l = true) (hh : headNotSpace l = true)
    (hl : lastNotSpace l = true) : coreNormalize l = l := by
  rw [coreNormalize_of_kept hk, (collapseRuns_id l hk hr).1]
  exact pyStripList_id hh hl

/-- normalize_string on a non-empty string is the core on its
characters. -/
theorem normalize_string_eq_core (s : String) (h : s ≠ "") :
    normalize_string s = ⟨coreNormalize s.data⟩ := by
  unfold normalize_string coreNormalize
  rw [if_neg h]

/-! ## Claim C10 (amended) -/

/-- C10 (amended): normalize_string is not idempotent, but its double
application is: a third application changes nothing after the second,
because the second pass leaves only kept characters with collapsed
spaces and stripped ends, which the function fixes. -/
theorem c10_double_application_stable (s : String) :
    normalize_string (normalize_string (normalize_string s)) =
      normalize_string (normalize_string s) := by
  by_cases hs : s = ""
  · subst hs; rfl
  · rw [normalize_string_eq_core s hs]
    generalize hL : coreNormalize s.data = l1
    have hk1 : ∀ c ∈ l1, isKeptChar c = true := hL ▸ allKept_coreNormalize s.data
    by_cases h1 : (⟨l1⟩ : String) = ""
    · rw [h1]; rfl
    · rw [normalize_string_eq_core ⟨l1⟩ h1]
      show normalize_string ⟨coreNormalize l1⟩ = ⟨coreNormalize l1⟩
      have hk2 : ∀ c ∈ coreNormalize l1, isKeptChar c = true := allKept_coreNormalize _
      obtain ⟨hr2, hh2, hl2⟩ := coreNormalize_canon hk1
      by_cases h2 : (⟨coreNormalize l1⟩ : String) = ""
      · rw [h2]; rfl
      · rw [normalize_string_eq_core ⟨coreNormalize l1⟩ h2]
        show (⟨coreNormalize (coreNormalize l1)⟩ : String) = ⟨coreNormalize l1⟩
        rw [coreNormalize_id hk2 hr2 hh2 hl2]

/-- C8 witness: the amended theorem applied at the decomposed-name query,
with its membership conjunct discharged at the matching row. -/
theorem c8_lookup_priority_witness :
    precomposedRow ∈ [precomposedRow] ∧ (precomposedRow.originalName = decomposedName ∨
      sqliteLower precomposedRow.originalName = sqliteLower decomposedName ∨
      precomposedRow.originalName = normalize_filename_for_db decomposedName ∨
      sqliteLower precomposedRow.originalName =
        sqliteLower (normalize_filename_for_db decomposedName)) :=
  (c8_lookup_priority decomposedName [precomposedRow]).2 precomposedRow (by decide)
